import Mathlib

/-!
Shallow embedding of the gridsol grid-trading program's ledger core
(`programs/gridsol/src/{state.rs, processor.rs}`): price-ladder
construction, fee splitting, the four fill-settlement branches, and the
cancel/withdraw lifecycle.  Machine integers (`u64`) are modelled as `ℕ`
with explicit bounds checks mirroring the source's `checked_*` and
`saturating_*` operations; fallible code returns `Except GridError`.
Account authentication, instruction decoding and token transfers are
external collaborators (spec §1, §6) and are modelled only through the
checked arithmetic the source performs on the transfer amounts.
-/

namespace Gridsol

/-- Largest value a `u64` holds. -/
def U64_MAX : ℕ := 18446744073709551615

/-- Fixed-point price denominator (constants.rs is not among the sources;
value given by spec §6: "prices are fixed-point with denominator
1,000,000,000"). -/
def PRICE_SCALE : ℕ := 1000000000

/-- Basis-point denominator (spec §6: "fee rates are basis points with
denominator 10,000"). -/
def BPS_DENOMINATOR : ℕ := 10000

/-- Modelled from the spec: `MAX_PROTOCOL_FEE_BPS` lives in the missing
constants.rs; spec §4.2 says the protocol share is "clamped to a maximum
allowed protocol share" and the state.rs test
`test_split_fee_clips_by_max_protocol_fee_bps` (share 5000 clamped so that
1000 × share / 10000 = 100) pins the value to 1000. -/
def MAX_PROTOCOL_FEE_BPS : ℕ := 1000

/-- Modelled from the spec: `MAX_ORDERS_PER_SIDE` lives in the missing
constants.rs; the spec only calls it "a fixed bound" (§3), and the repo
tests require it to fit a `u8`.  The claims under verification do not
depend on the exact value; 32 is used here, and every theorem below holds
for any bound ≥ 3. -/
def MAX_ORDERS_PER_SIDE : ℕ := 32

/-- Error taxonomy of error.rs (the collaborator-level variants are kept
for completeness). -/
inductive GridError where
  | InvalidInstruction
  | NotAdmin
  | NotGridOwner
  | Paused
  | GridCanceled
  | InvalidFee
  | InvalidOrderCount
  | InvalidOrderIndex
  | ZeroAmount
  | MathOverflow
  | InsufficientLiquidity
  | NoProfits
  | AccountDataTooSmall
  | InvalidAccountOwner
  | InvalidTokenProgram
  | InvalidTokenAccount
  deriving Repr, DecidableEq

/-- `u64::checked_add` followed by `ok_or(GridError::MathOverflow)`. -/
def checked_add (a b : ℕ) : Except GridError ℕ :=
  if a + b ≤ U64_MAX then .ok (a + b) else .error .MathOverflow

/-- `u64::checked_sub` followed by `ok_or(GridError::MathOverflow)`. -/
def checked_sub (a b : ℕ) : Except GridError ℕ :=
  if b ≤ a then .ok (a - b) else .error .MathOverflow

/-- processor.rs `u128_to_u64`. -/
def u128_to_u64 (v : ℕ) : Except GridError ℕ :=
  if v ≤ U64_MAX then .ok v else .error .MathOverflow

/-- processor.rs `mul_div_u64`: `a * b / denom` through a `u128`
intermediate (the 128-bit product of two `u64` cannot overflow), then
narrowed back to `u64`. -/
def mul_div_u64 (a b denom : ℕ) : Except GridError ℕ :=
  if denom = 0 then .error .MathOverflow
  else u128_to_u64 (a * b / denom)

/-- processor.rs `calc_fee_u64`: `amount * fee_bps / 10000` through `u128`. -/
def calc_fee_u64 (amount fee_bps : ℕ) : Except GridError ℕ :=
  u128_to_u64 (amount * fee_bps / BPS_DENOMINATOR)

/-- Accumulating loop of processor.rs `sum_u64_slice` (`try_fold` with
`checked_add`). -/
def sum_u64_from (acc : ℕ) : List ℕ → Except GridError ℕ
  | [] => .ok acc
  | x :: xs =>
    match checked_add acc x with
    | .error e => .error e
    | .ok a => sum_u64_from a xs

/-- processor.rs `sum_u64_slice`. -/
def sum_u64_slice (l : List ℕ) : Except GridError ℕ :=
  sum_u64_from 0 l

/-- `u64::saturating_mul`. -/
def saturating_mul (a b : ℕ) : ℕ := min (a * b) U64_MAX

/-- `u64::saturating_sub` (ℕ subtraction already truncates at 0). -/
def saturating_sub (a b : ℕ) : ℕ := a - b

/-- state.rs `split_fee`: select the protocol share (oneshot or ordinary),
clamp it to `MAX_PROTOCOL_FEE_BPS`, take `total_fee * share / 10000` with
a saturating product, and give the remainder to the maker. -/
def split_fee (total_fee protocol_fee_bps oneshot_protocol_fee_bps : ℕ) (oneshot : Bool) :
    ℕ × ℕ :=
  let protocol_share_bps :=
    if oneshot then min oneshot_protocol_fee_bps MAX_PROTOCOL_FEE_BPS
    else min protocol_fee_bps MAX_PROTOCOL_FEE_BPS
  let protocol_fee := saturating_mul total_fee protocol_share_bps / 10000
  let maker_fee := saturating_sub total_fee protocol_fee
  (protocol_fee, maker_fee)

/-- instruction.rs `StrategyParam`. -/
inductive StrategyParam where
  | Linear (gap : ℤ)
  | Geometry (ratio_x1e9 : ℕ)
  deriving Repr, DecidableEq

/-- One iteration of the `for i in 1..n` body of processor.rs
`build_side_prices`: validate the strategy parameter for the side, then
compute slot `i` (Linear works from `price0 + gap * i` in `i128`;
Geometry from the previous slot). -/
def next_price (price0 : ℕ) (strat : StrategyParam) (du : Bool) (i : ℕ) (prev : ℕ) :
    Except GridError ℕ :=
  match strat with
  | .Linear gap =>
    if (du = true ∧ gap ≤ 0) ∨ (du = false ∧ 0 ≤ gap) then .error .InvalidOrderCount
    else
      let price_i : ℤ := (price0 : ℤ) + gap * (i : ℤ)
      if price_i ≤ 0 then .error .InvalidOrderCount
      else if (U64_MAX : ℤ) < price_i then .error .MathOverflow
      else .ok price_i.toNat
  | .Geometry ratio =>
    if (du = true ∧ ratio ≤ PRICE_SCALE) ∨
        (du = false ∧ (PRICE_SCALE ≤ ratio ∨ ratio = 0)) then .error .InvalidOrderCount
    else mul_div_u64 prev ratio PRICE_SCALE

/-- The `for i in 1..n` loop of `build_side_prices`, as a recursion on the
remaining iteration count: `fuel = n - i`, `prev = out[i-1]`.  After each
step the source rejects a zero price and a price that is not strictly more
extreme than the previous slot in the side's direction. -/
def build_rest (price0 : ℕ) (strat : StrategyParam) (du : Bool) :
    ℕ → ℕ → ℕ → Except GridError (List ℕ)
  | 0, _, _ => .ok []
  | fuel + 1, i, prev =>
    match next_price price0 strat du i prev with
    | .error e => .error e
    | .ok next =>
      if next = 0 then .error .InvalidOrderCount
      else if (du = true ∧ next ≤ prev) ∨ (du = false ∧ prev ≤ next) then
        .error .InvalidOrderCount
      else
        match build_rest price0 strat du fuel (i + 1) next with
        | .error e => .error e
        | .ok rest => .ok (next :: rest)

/-- processor.rs `build_side_prices`. -/
def build_side_prices (price0 count : ℕ) (strat : StrategyParam) (du : Bool) :
    Except GridError (List ℕ) :=
  if count = 0 then .ok []
  else if MAX_ORDERS_PER_SIDE < count ∨ price0 = 0 then .error .InvalidOrderCount
  else
    match build_rest price0 strat du (count - 1) 1 price0 with
    | .error e => .error e
    | .ok rest => .ok (price0 :: rest)

/-- Strategy parameters the spec calls invalid for a side: wrong Linear gap
sign, Geometric ratio ≤ 1e9 for ask, Geometric ratio outside (0, 1e9) for
bid (exactly the per-step validation of `build_side_prices`). -/
def invalid_strategy : StrategyParam → Bool → Bool
  | .Linear gap, du => (du && decide (gap ≤ 0)) || (!du && decide (0 ≤ gap))
  | .Geometry ratio, du =>
    (du && decide (ratio ≤ PRICE_SCALE)) ||
      (!du && (decide (PRICE_SCALE ≤ ratio) || decide (ratio = 0)))

/-- Body of the `for i in 0..n` loop of processor.rs
`build_side_reverse_prices` for one index `i`. -/
def reverse_price_at (price0 : ℕ) (strat : StrategyParam) (du : Bool)
    (side_prices : List ℕ) (i : ℕ) : Except GridError ℕ :=
  match strat with
  | .Linear gap =>
    if (du = true ∧ gap ≤ 0) ∨ (du = false ∧ 0 ≤ gap) then .error .InvalidOrderCount
    else if i = 0 then
      let v : ℤ := (price0 : ℤ) - gap
      if v ≤ 0 then .error .InvalidOrderCount
      else if (U64_MAX : ℤ) < v then .error .MathOverflow
      else .ok v.toNat
    else .ok (side_prices.getD (i - 1) 0)
  | .Geometry ratio =>
    if ratio = 0 then .error .InvalidOrderCount
    else if i = 0 then mul_div_u64 price0 PRICE_SCALE ratio
    else .ok (side_prices.getD (i - 1) 0)

/-- The `for i in 0..n` loop of `build_side_reverse_prices`: each computed
reverse price must be nonzero. -/
def build_reverse_loop (price0 : ℕ) (strat : StrategyParam) (du : Bool)
    (side_prices : List ℕ) : ℕ → ℕ → Except GridError (List ℕ)
  | 0, _ => .ok []
  | fuel + 1, i =>
    match reverse_price_at price0 strat du side_prices i with
    | .error e => .error e
    | .ok rp =>
      if rp = 0 then .error .InvalidOrderCount
      else
        match build_reverse_loop price0 strat du side_prices fuel (i + 1) with
        | .error e => .error e
        | .ok rest => .ok (rp :: rest)

/-- processor.rs `build_side_reverse_prices`. -/
def build_side_reverse_prices (price0 count : ℕ) (strat : StrategyParam) (du : Bool)
    (side_prices : List ℕ) : Except GridError (List ℕ) :=
  if count = 0 then .ok []
  else if side_prices.length ≠ count then .error .InvalidOrderCount
  else build_reverse_loop price0 strat du side_prices count 0

/-- state.rs `Config`, ledger-relevant fields (the admin identity is an
external authentication concern, spec §1). -/
structure Config where
  paused : Bool
  protocol_fee_bps : ℕ
  oneshot_protocol_fee_bps : ℕ
  next_grid_id : ℕ
  deriving Repr, DecidableEq

/-- state.rs `Grid`, ledger fields (owner/vault/signer addresses and the
signer bump belong to the external authentication and transfer
collaborators, spec §1, §6).  `status` 0 = Active, 1 = Canceled. -/
structure Grid where
  id : ℕ
  status : ℕ
  fee_bps : ℕ
  compound : Bool
  oneshot : Bool
  base_amount_per_order : ℕ
  profits_quote : ℕ
  protocol_fees_quote : ℕ
  ask_prices : List ℕ
  ask_rev_prices : List ℕ
  ask_remaining : List ℕ
  ask_reverse_quote : List ℕ
  bid_prices : List ℕ
  bid_rev_prices : List ℕ
  bid_remaining_quote : List ℕ
  bid_reverse_base : List ℕ
  deriving Repr, DecidableEq

/-- state.rs `Grid::is_active`. -/
def Grid.is_active (g : Grid) : Bool := g.status = 0

/-- instruction.rs `FillTarget`: `side` 0 = taker buys base (fillAsk),
1 = taker sells base (fillBid); `order_side` 0 = ask order, 1 = bid order. -/
structure FillTarget where
  side : ℕ
  order_side : ℕ
  order_index : ℕ
  base_amount : ℕ
  deriving Repr, DecidableEq

/-- The `(fill_base, quote_gross, total_fee, protocol_fee)` quadruple
`execute_single_fill` produces for the transfer phase. -/
structure FillOutcome where
  fill_base : ℕ
  quote_gross : ℕ
  total_fee : ℕ
  protocol_fee : ℕ
  deriving Repr, DecidableEq

/-- processor.rs `apply_ask_bookkeeping`: debit the forward base
inventory; in compound mode credit the whole `quote_gross + maker_fee` to
the reverse quote slot; in non-compound mode cap the reverse quote slot at
one order's notional valued at `quota_price` and push overflow to
`profits_quote`. -/
def apply_ask_bookkeeping (grid : Grid) (idx fill_base quote_gross maker_fee quota_price : ℕ) :
    Except GridError Grid :=
  match checked_sub (grid.ask_remaining.getD idx 0) fill_base with
  | .error e => .error e
  | .ok new_rem =>
    let grid1 := { grid with ask_remaining := grid.ask_remaining.set idx new_rem }
    if grid1.compound then
      match checked_add quote_gross maker_fee with
      | .error e => .error e
      | .ok add_rev =>
        match checked_add (grid1.ask_reverse_quote.getD idx 0) add_rev with
        | .error e => .error e
        | .ok v =>
          .ok { grid1 with ask_reverse_quote := grid1.ask_reverse_quote.set idx v }
    else
      match mul_div_u64 grid1.base_amount_per_order quota_price PRICE_SCALE with
      | .error e => .error e
      | .ok target_quote =>
        match checked_add quote_gross maker_fee with
        | .error e => .error e
        | .ok add_rev =>
          let cur_rev := grid1.ask_reverse_quote.getD idx 0
          if target_quote ≤ cur_rev then
            match checked_add grid1.profits_quote add_rev with
            | .error e => .error e
            | .ok p => .ok { grid1 with profits_quote := p }
          else
            match checked_add cur_rev add_rev with
            | .error e => .error e
            | .ok next_rev =>
              if target_quote < next_rev then
                match checked_sub next_rev target_quote with
                | .error e => .error e
                | .ok ovf =>
                  match checked_add grid1.profits_quote ovf with
                  | .error e => .error e
                  | .ok p =>
                    .ok { grid1 with
                      ask_reverse_quote := grid1.ask_reverse_quote.set idx target_quote,
                      profits_quote := p }
              else
                .ok { grid1 with ask_reverse_quote := grid1.ask_reverse_quote.set idx next_rev }

/-- processor.rs `apply_bid_bookkeeping`: debit the forward quote
inventory (compound mode keeps the maker fee as working capital), credit
the reverse base inventory, and in non-compound mode sweep the maker fee
to `profits_quote`. -/
def apply_bid_bookkeeping (grid : Grid) (idx fill_base quote_gross maker_fee : ℕ) :
    Except GridError Grid :=
  match (if grid.compound then checked_sub quote_gross maker_fee else .ok quote_gross) with
  | .error e => .error e
  | .ok quote_decrease =>
    match checked_sub (grid.bid_remaining_quote.getD idx 0) quote_decrease with
    | .error e => .error e
    | .ok new_q =>
      match checked_add (grid.bid_reverse_base.getD idx 0) fill_base with
      | .error e => .error e
      | .ok new_b =>
        let grid1 := { grid with
          bid_remaining_quote := grid.bid_remaining_quote.set idx new_q,
          bid_reverse_base := grid.bid_reverse_base.set idx new_b }
        if grid1.compound then .ok grid1
        else
          match checked_add grid1.profits_quote maker_fee with
          | .error e => .error e
          | .ok p => .ok { grid1 with profits_quote := p }

/-- processor.rs `apply_bid_reverse_bookkeeping`: debit the reverse base
inventory, then credit `quote_gross + maker_fee` back to the forward quote
slot — uncapped in compound mode, capped at one order's notional valued at
`quota_price` (the forward bid price at the call site) in non-compound
mode, with overflow routed to `profits_quote`. -/
def apply_bid_reverse_bookkeeping (grid : Grid)
    (idx fill_base quote_gross maker_fee quota_price : ℕ) : Except GridError Grid :=
  match checked_sub (grid.bid_reverse_base.getD idx 0) fill_base with
  | .error e => .error e
  | .ok new_rb =>
    let grid1 := { grid with bid_reverse_base := grid.bid_reverse_base.set idx new_rb }
    match checked_add quote_gross maker_fee with
    | .error e => .error e
    | .ok add_rev =>
      if grid1.compound then
        match checked_add (grid1.bid_remaining_quote.getD idx 0) add_rev with
        | .error e => .error e
        | .ok v =>
          .ok { grid1 with bid_remaining_quote := grid1.bid_remaining_quote.set idx v }
      else
        match mul_div_u64 grid1.base_amount_per_order quota_price PRICE_SCALE with
        | .error e => .error e
        | .ok target_quote =>
          let cur := grid1.bid_remaining_quote.getD idx 0
          if target_quote ≤ cur then
            match checked_add grid1.profits_quote add_rev with
            | .error e => .error e
            | .ok p => .ok { grid1 with profits_quote := p }
          else
            match checked_add cur add_rev with
            | .error e => .error e
            | .ok next =>
              if target_quote < next then
                match checked_sub next target_quote with
                | .error e => .error e
                | .ok ovf =>
                  match checked_add grid1.profits_quote ovf with
                  | .error e => .error e
                  | .ok p =>
                    .ok { grid1 with
                      bid_remaining_quote := grid1.bid_remaining_quote.set idx target_quote,
                      profits_quote := p }
              else
                .ok { grid1 with
                  bid_remaining_quote := grid1.bid_remaining_quote.set idx next }

/-- processor.rs `apply_ask_reverse_bookkeeping`: debit the reverse quote
inventory (compound mode keeps the maker fee), credit the forward base
inventory, and in non-compound mode sweep the maker fee to
`profits_quote`. -/
def apply_ask_reverse_bookkeeping (grid : Grid) (idx fill_base quote_gross maker_fee : ℕ) :
    Except GridError Grid :=
  match (if grid.compound then checked_sub quote_gross maker_fee else .ok quote_gross) with
  | .error e => .error e
  | .ok quote_decrease =>
    match checked_sub (grid.ask_reverse_quote.getD idx 0) quote_decrease with
    | .error e => .error e
    | .ok new_q =>
      match checked_add (grid.ask_remaining.getD idx 0) fill_base with
      | .error e => .error e
      | .ok new_b =>
        let grid1 := { grid with
          ask_reverse_quote := grid.ask_reverse_quote.set idx new_q,
          ask_remaining := grid.ask_remaining.set idx new_b }
        if grid1.compound then .ok grid1
        else
          match checked_add grid1.profits_quote maker_fee with
          | .error e => .error e
          | .ok p => .ok { grid1 with profits_quote := p }

/-- processor.rs `execute_single_fill`, ledger semantics: the four-way
dispatch on `(side, order_side)`, the per-case quantity/price/fee
computation and bookkeeping, the checked computation of the taker transfer
amount (`quote_gross + total_fee` in, or `quote_gross − total_fee` out —
the token movements themselves are the external transfer collaborator),
and the final accrual of `protocol_fee` into `protocol_fees_quote`. -/
def execute_single_fill (config : Config) (grid : Grid) (fill : FillTarget) :
    Except GridError (Grid × FillOutcome) :=
  let idx := fill.order_index
  let req_base := fill.base_amount
  let step : Except GridError (Grid × FillOutcome) :=
    match fill.side, fill.order_side with
    | 0, 0 =>
      if grid.ask_remaining.length ≤ idx then .error .InvalidOrderIndex
      else
        let remaining := grid.ask_remaining.getD idx 0
        if remaining = 0 then .error .InsufficientLiquidity
        else
          let fill_base := min remaining req_base
          match mul_div_u64 fill_base (grid.ask_prices.getD idx 0) PRICE_SCALE with
          | .error e => .error e
          | .ok quote_gross =>
            match calc_fee_u64 quote_gross grid.fee_bps with
            | .error e => .error e
            | .ok total_fee =>
              let pm := split_fee total_fee config.protocol_fee_bps
                config.oneshot_protocol_fee_bps grid.oneshot
              match apply_ask_bookkeeping grid idx fill_base quote_gross pm.2
                  (grid.ask_rev_prices.getD idx 0) with
              | .error e => .error e
              | .ok grid2 => .ok (grid2, ⟨fill_base, quote_gross, total_fee, pm.1⟩)
    | 0, 1 =>
      if grid.oneshot then .error .InvalidInstruction
      else if grid.bid_reverse_base.length ≤ idx then .error .InvalidOrderIndex
      else
        let remaining_base := grid.bid_reverse_base.getD idx 0
        if remaining_base = 0 then .error .InsufficientLiquidity
        else
          let fill_base := min remaining_base req_base
          match mul_div_u64 fill_base (grid.bid_rev_prices.getD idx 0) PRICE_SCALE with
          | .error e => .error e
          | .ok quote_gross =>
            match calc_fee_u64 quote_gross grid.fee_bps with
            | .error e => .error e
            | .ok total_fee =>
              let pm := split_fee total_fee config.protocol_fee_bps
                config.oneshot_protocol_fee_bps grid.oneshot
              match apply_bid_reverse_bookkeeping grid idx fill_base quote_gross pm.2
                  (grid.bid_prices.getD idx 0) with
              | .error e => .error e
              | .ok grid2 => .ok (grid2, ⟨fill_base, quote_gross, total_fee, pm.1⟩)
    | 1, 1 =>
      if grid.bid_remaining_quote.length ≤ idx then .error .InvalidOrderIndex
      else
        let remaining_quote := grid.bid_remaining_quote.getD idx 0
        if remaining_quote = 0 then .error .InsufficientLiquidity
        else
          let price := grid.bid_prices.getD idx 0
          match mul_div_u64 req_base price PRICE_SCALE with
          | .error e => .error e
          | .ok qg0 =>
            match (if remaining_quote < qg0 then
                match mul_div_u64 remaining_quote PRICE_SCALE price with
                | .error e => .error e
                | .ok fb => .ok (fb, remaining_quote)
              else (.ok (req_base, qg0) : Except GridError (ℕ × ℕ))) with
            | .error e => .error e
            | .ok fq =>
              if fq.1 = 0 ∨ fq.2 = 0 then .error .InsufficientLiquidity
              else
                match calc_fee_u64 fq.2 grid.fee_bps with
                | .error e => .error e
                | .ok total_fee =>
                  let pm := split_fee total_fee config.protocol_fee_bps
                    config.oneshot_protocol_fee_bps grid.oneshot
                  match apply_bid_bookkeeping grid idx fq.1 fq.2 pm.2 with
                  | .error e => .error e
                  | .ok grid2 => .ok (grid2, ⟨fq.1, fq.2, total_fee, pm.1⟩)
    | 1, 0 =>
      if grid.oneshot then .error .InvalidInstruction
      else if grid.ask_reverse_quote.length ≤ idx then .error .InvalidOrderIndex
      else
        let remaining_quote := grid.ask_reverse_quote.getD idx 0
        if remaining_quote = 0 then .error .InsufficientLiquidity
        else
          let price := grid.ask_rev_prices.getD idx 0
          match mul_div_u64 req_base price PRICE_SCALE with
          | .error e => .error e
          | .ok qg0 =>
            match (if remaining_quote < qg0 then
                match mul_div_u64 remaining_quote PRICE_SCALE price with
                | .error e => .error e
                | .ok fb => .ok (fb, remaining_quote)
              else (.ok (req_base, qg0) : Except GridError (ℕ × ℕ))) with
            | .error e => .error e
            | .ok fq =>
              if fq.1 = 0 ∨ fq.2 = 0 then .error .InsufficientLiquidity
              else
                match calc_fee_u64 fq.2 grid.fee_bps with
                | .error e => .error e
                | .ok total_fee =>
                  let pm := split_fee total_fee config.protocol_fee_bps
                    config.oneshot_protocol_fee_bps grid.oneshot
                  match apply_ask_reverse_bookkeeping grid idx fq.1 fq.2 pm.2 with
                  | .error e => .error e
                  | .ok grid2 => .ok (grid2, ⟨fq.1, fq.2, total_fee, pm.1⟩)
    | _, _ => .error .InvalidInstruction
  match step with
  | .error e => .error e
  | .ok go =>
    match (if fill.side = 0 then checked_add go.2.quote_gross go.2.total_fee
      else if fill.side = 1 then checked_sub go.2.quote_gross go.2.total_fee
      else .error .InvalidInstruction) with
    | .error e => .error e
    | .ok _ =>
      match checked_add go.1.protocol_fees_quote go.2.protocol_fee with
      | .error e => .error e
      | .ok pfq => .ok ({ go.1 with protocol_fees_quote := pfq }, go.2)

/-- Ledger semantics of one target inside processor.rs `fill_orders` (and
of `fill_order` past its account checks): zero requested amount is
rejected, the grid must be Active, then `execute_single_fill` runs. -/
def fill_step (config : Config) (grid : Grid) (fill : FillTarget) : Except GridError Grid :=
  if fill.base_amount = 0 then .error .ZeroAmount
  else if grid.status ≠ 0 then .error .GridCanceled
  else
    match execute_single_fill config grid fill with
    | .error e => .error e
    | .ok r => .ok r.1

/-- The per-target loop of processor.rs `fill_orders`; any failing target
aborts the whole call. -/
def fill_orders_loop (config : Config) : List (Grid × FillTarget) → Except GridError (List Grid)
  | [] => .ok []
  | t :: rest =>
    match fill_step config t.1 t.2 with
    | .error e => .error e
    | .ok g =>
      match fill_orders_loop config rest with
      | .error e => .error e
      | .ok gs => .ok (g :: gs)

/-- processor.rs `fill_orders`, ledger semantics: reject an empty batch,
reject when paused, then run every target. -/
def fill_orders (config : Config) (targets : List (Grid × FillTarget)) :
    Except GridError (List Grid) :=
  if targets.isEmpty then .error .InvalidOrderCount
  else if config.paused then .error .Paused
  else fill_orders_loop config targets

/-- Account state the runtime persists after an instruction: the Solana
transaction mechanism commits the written grid records only when the
instruction returns success and rolls every write back on error (spec §5:
"the caller's transaction mechanism rolls back every mutation made during
the call if any step fails"; exercised by the repo's
`integration_cross_grid_fill_orders_atomicity` test). -/
def committed_grids (before : List Grid) (result : Except GridError (List Grid)) : List Grid :=
  match result with
  | .ok gs => gs
  | .error _ => before

/-- processor.rs `cancel_order`, ledger semantics (owner authentication
and the refund transfers are external): returns the mutated grid and the
`(refund_base, refund_quote)` amounts sent to the owner. -/
def cancel_order (grid : Grid) (side idx : ℕ) : Except GridError (Grid × ℕ × ℕ) :=
  if side = 0 then
    if grid.ask_remaining.length ≤ idx then .error .InvalidOrderIndex
    else
      let refund_base := grid.ask_remaining.getD idx 0
      let refund_quote := grid.ask_reverse_quote.getD idx 0
      if refund_base = 0 ∧ refund_quote = 0 then .error .InsufficientLiquidity
      else
        .ok ({ grid with
          ask_remaining := grid.ask_remaining.set idx 0,
          ask_reverse_quote := grid.ask_reverse_quote.set idx 0 },
          refund_base, refund_quote)
  else if side = 1 then
    if grid.bid_remaining_quote.length ≤ idx then .error .InvalidOrderIndex
    else
      let refund_base := grid.bid_reverse_base.getD idx 0
      let refund_quote := grid.bid_remaining_quote.getD idx 0
      if refund_base = 0 ∧ refund_quote = 0 then .error .InsufficientLiquidity
      else
        .ok ({ grid with
          bid_remaining_quote := grid.bid_remaining_quote.set idx 0,
          bid_reverse_base := grid.bid_reverse_base.set idx 0 },
          refund_base, refund_quote)
  else .error .InvalidInstruction

/-- processor.rs `cancel_grid`, ledger semantics: require Active, sum the
four inventories plus `profits_quote` into the two refunds with checked
arithmetic, zero every inventory and `profits_quote`, set status to
Canceled.  `protocol_fees_quote` is not touched. -/
def cancel_grid (grid : Grid) : Except GridError (Grid × ℕ × ℕ) :=
  if grid.status ≠ 0 then .error .GridCanceled
  else
    match sum_u64_slice grid.ask_remaining with
    | .error e => .error e
    | .ok s1 =>
      match sum_u64_slice grid.bid_reverse_base with
      | .error e => .error e
      | .ok s2 =>
        match checked_add s1 s2 with
        | .error e => .error e
        | .ok refund_base =>
          match sum_u64_slice grid.ask_reverse_quote with
          | .error e => .error e
          | .ok s3 =>
            match sum_u64_slice grid.bid_remaining_quote with
            | .error e => .error e
            | .ok s4 =>
              match checked_add s3 s4 with
              | .error e => .error e
              | .ok s34 =>
                match checked_add s34 grid.profits_quote with
                | .error e => .error e
                | .ok refund_quote =>
                  .ok ({ grid with
                    ask_remaining := List.replicate grid.ask_remaining.length 0,
                    ask_reverse_quote := List.replicate grid.ask_reverse_quote.length 0,
                    bid_remaining_quote := List.replicate grid.bid_remaining_quote.length 0,
                    bid_reverse_base := List.replicate grid.bid_reverse_base.length 0,
                    profits_quote := 0,
                    status := 1 },
                    refund_base, refund_quote)

/-- Withdrawal amount selection shared by the two withdraw instructions:
`amount = 0` means everything available, otherwise clamp to the
accumulator. -/
def withdraw_amt (available amount : ℕ) : ℕ :=
  if amount = 0 then available else min amount available

/-- processor.rs `withdraw_protocol_fees`, ledger semantics (admin
authentication and the transfer are external; the grid's status is never
examined): returns the mutated grid and the withdrawn amount. -/
def withdraw_protocol_fees (grid : Grid) (amount : ℕ) : Except GridError (Grid × ℕ) :=
  let amt := withdraw_amt grid.protocol_fees_quote amount
  if amt = 0 then .error .NoProfits
  else
    match checked_sub grid.protocol_fees_quote amt with
    | .error e => .error e
    | .ok p => .ok ({ grid with protocol_fees_quote := p }, amt)

/-- Config for the Scenario-B style concrete runs: not paused, ordinary
protocol share 200 bps, oneshot share 500 bps. -/
def cfgB : Config := ⟨false, 200, 500, 1⟩

/-- Fresh non-compound grid of spec Scenario B: `base_amount_per_order` =
100, `ask_prices[0]` = 1e9, `ask_rev_prices[0]` = 0.9e9, `fee_bps` = 100
(mirrors the `sample_grid` fixture in state.rs). -/
def gridB : Grid :=
  ⟨1, 0, 100, false, false, 100, 0, 0,
    [1000000000], [900000000], [100], [0],
    [900000000], [1000000000], [90], [0]⟩

/-- Expected post-state of Scenario B: the ask slot emptied, its reverse
quote capped at 90, the 11-unit overflow in `profits_quote`. -/
def gridB' : Grid :=
  { gridB with ask_remaining := [0], ask_reverse_quote := [90], profits_quote := 11 }

/-- Zero-fee config used for the reverse-bid pricing run. -/
def cfgC : Config := ⟨false, 0, 0, 1⟩

/-- Non-compound grid with distinct forward and reverse bid prices
(`bid_prices[0]` = 1e9, `bid_rev_prices[0]` = 1.1e9) and 10 units of
reverse base inventory. -/
def gridC : Grid :=
  ⟨2, 0, 0, false, false, 100, 0, 0,
    [1000000000], [900000000], [100], [0],
    [1000000000], [1100000000], [50], [10]⟩

/-- Post-state of the reverse-bid fill on `gridC`: the 10 base units sold
again, 11 quote credited back into the forward bid slot. -/
def gridC' : Grid :=
  { gridC with bid_reverse_base := [0], bid_remaining_quote := [61] }

/-- Post-state of `cancel_grid` on `gridB`: every inventory and
`profits_quote` zeroed, status Canceled. -/
def gridBc : Grid :=
  { gridB with
    ask_remaining := [0]
    ask_reverse_quote := [0]
    bid_remaining_quote := [0]
    bid_reverse_base := [0]
    profits_quote := 0
    status := 1 }

/-- A Canceled grid that still carries 7 units of accrued protocol fees. -/
def gridD : Grid := { gridC with status := 1, protocol_fees_quote := 7 }

theorem checked_add_ok {a b c : ℕ} (h : checked_add a b = .ok c) : c = a + b := by
  unfold checked_add at h
  split at h
  · exact (Except.ok.injEq _ _ ▸ h.symm : _)
  · exact absurd h (by simp)

theorem checked_sub_ok {a b c : ℕ} (h : checked_sub a b = .ok c) : b ≤ a ∧ c = a - b := by
  unfold checked_sub at h
  split at h
  next hle => exact ⟨hle, by cases h; rfl⟩
  · exact absurd h (by simp)

theorem u128_to_u64_ok {v c : ℕ} (h : u128_to_u64 v = .ok c) : c = v ∧ v ≤ U64_MAX := by
  unfold u128_to_u64 at h
  split at h
  next hle => exact ⟨by cases h; rfl, hle⟩
  · exact absurd h (by simp)

theorem mul_div_u64_ok {a b d q : ℕ} (h : mul_div_u64 a b d = .ok q) : q = a * b / d := by
  unfold mul_div_u64 at h
  split at h
  · exact absurd h (by simp)
  · exact (u128_to_u64_ok h).1

theorem calc_fee_u64_ok {a f q : ℕ} (h : calc_fee_u64 a f = .ok q) :
    q = a * f / BPS_DENOMINATOR :=
  (u128_to_u64_ok h).1

theorem sum_u64_from_ok (l : List ℕ) :
    ∀ acc s, sum_u64_from acc l = .ok s → s = acc + l.sum := by
  induction l with
  | nil =>
    intro acc s h
    unfold sum_u64_from at h
    cases h
    simp
  | cons x xs ih =>
    intro acc s h
    unfold sum_u64_from at h
    cases hc : checked_add acc x with
    | error e => rw [hc] at h; exact absurd h (by simp)
    | ok a =>
      rw [hc] at h
      have := ih a s h
      have ha := checked_add_ok hc
      subst ha
      simp [this]
      omega

theorem sum_u64_slice_ok {l : List ℕ} {s : ℕ} (h : sum_u64_slice l = .ok s) : s = l.sum := by
  have := sum_u64_from_ok l 0 s h
  simpa using this

theorem getD_set_self (l : List ℕ) (i v : ℕ) (h : i < l.length) :
    (l.set i v).getD i 0 = v := by
  induction l generalizing i with
  | nil => simp at h
  | cons a as ih =>
    cases i with
    | zero => rfl
    | succ n =>
      simp only [List.set, List.getD_cons_succ]
      exact ih n (by simpa using h)

/-- C4.  Corrected.  For every `(total_fee, share_bps)` pair, `split_fee`
returns `(protocol_fee, maker_fee)` with `protocol_fee + maker_fee =
total_fee`; the claimed exact formula `protocol_fee = floor(total_fee ×
clamped_share / 10000)` holds whenever `total_fee × clamped_share` does
not exceed `u64::MAX` (the source's `saturating_mul` caps the product
there first); `total_fee = 0` yields `(0, 0)`; the function is total, so
it never errors. -/
theorem C4_split_fee (total_fee pbps obps : ℕ) (os : Bool) :
    (split_fee total_fee pbps obps os).1 + (split_fee total_fee pbps obps os).2 = total_fee ∧
    (total_fee * (if os then min obps MAX_PROTOCOL_FEE_BPS else min pbps MAX_PROTOCOL_FEE_BPS)
        ≤ U64_MAX →
      (split_fee total_fee pbps obps os).1 =
        total_fee *
          (if os then min obps MAX_PROTOCOL_FEE_BPS else min pbps MAX_PROTOCOL_FEE_BPS) /
          10000) ∧
    split_fee 0 pbps obps os = (0, 0) := by
  set share := if os then min obps MAX_PROTOCOL_FEE_BPS else min pbps MAX_PROTOCOL_FEE_BPS
    with hshare
  have hs10 : share ≤ 10000 := by
    have : share ≤ MAX_PROTOCOL_FEE_BPS := by
      rw [hshare]; split <;> exact min_le_right _ _
    calc share ≤ MAX_PROTOCOL_FEE_BPS := this
    _ ≤ 10000 := by norm_num [MAX_PROTOCOL_FEE_BPS]
  have hprot : (split_fee total_fee pbps obps os).1 =
      min (total_fee * share) U64_MAX / 10000 := by
    simp only [split_fee, saturating_mul, hshare]
  have hmaker : (split_fee total_fee pbps obps os).2 =
      total_fee - (split_fee total_fee pbps obps os).1 := by
    simp only [split_fee, saturating_mul, saturating_sub, hshare]
  have hple : (split_fee total_fee pbps obps os).1 ≤ total_fee := by
    rw [hprot]
    have h1 : min (total_fee * share) U64_MAX ≤ total_fee * 10000 :=
      le_trans (min_le_left _ _) (Nat.mul_le_mul_left _ hs10)
    calc min (total_fee * share) U64_MAX / 10000 ≤ total_fee * 10000 / 10000 :=
        Nat.div_le_div_right h1
    _ = total_fee := Nat.mul_div_cancel total_fee (by norm_num)
  refine ⟨?_, ?_, ?_⟩
  · rw [hmaker]; omega
  · intro hle
    rw [hprot, min_eq_left hle]
  · simp [split_fee, saturating_mul, saturating_sub]

/-- C4 counterexample: at `total_fee = u64::MAX`, `share_bps = 2`, the
saturating product makes the protocol fee differ from the claim's exact
floor formula. -/
theorem C4_counterexample :
    (split_fee U64_MAX 2 0 false).1 ≠ U64_MAX * min 2 MAX_PROTOCOL_FEE_BPS / 10000 := by
  decide

theorem C4_witness :
    (split_fee 20000 200 500 false).1 + (split_fee 20000 200 500 false).2 = 20000 ∧
    (split_fee 20000 200 500 false).1 =
      20000 *
        (if (false : Bool) then min 500 MAX_PROTOCOL_FEE_BPS else min 200 MAX_PROTOCOL_FEE_BPS) /
        10000 :=
  ⟨(C4_split_fee 20000 200 500 false).1, (C4_split_fee 20000 200 500 false).2.1 (by decide)⟩

theorem next_price_invalid (p0 : ℕ) (strat : StrategyParam) (du : Bool) (i prev : ℕ)
    (h : invalid_strategy strat du = true) :
    next_price p0 strat du i prev = .error .InvalidOrderCount := by
  cases strat with
  | Linear gap =>
    simp only [invalid_strategy, Bool.or_eq_true, Bool.and_eq_true, decide_eq_true_eq,
      Bool.not_eq_true'] at h
    simp only [next_price]
    rw [if_pos h]
  | Geometry r =>
    simp only [invalid_strategy, Bool.or_eq_true, Bool.and_eq_true, decide_eq_true_eq,
      Bool.not_eq_true'] at h
    simp only [next_price]
    rw [if_pos h]

theorem build_rest_invalid (p0 : ℕ) (strat : StrategyParam) (du : Bool)
    (h : invalid_strategy strat du = true) (fuel i prev : ℕ) (hf : 1 ≤ fuel) :
    build_rest p0 strat du fuel i prev = .error .InvalidOrderCount := by
  cases fuel with
  | zero => omega
  | succ f =>
    unfold build_rest
    rw [next_price_invalid p0 strat du i prev h]

theorem build_rest_len_mono (p0 : ℕ) (strat : StrategyParam) (du : Bool) :
    ∀ fuel i prev l, build_rest p0 strat du fuel i prev = .ok l →
      l.length = fuel ∧
      List.Chain' (fun a b : ℕ => if du = true then a < b else b < a) (prev :: l) := by
  intro fuel
  induction fuel with
  | zero =>
    intro i prev l h
    unfold build_rest at h
    cases h
    exact ⟨rfl, List.chain'_singleton prev⟩
  | succ f ih =>
    intro i prev l h
    unfold build_rest at h
    split at h
    · exact absurd h (by simp)
    next nxt hnp =>
      split at h
      · exact absurd h (by simp)
      next hnz =>
        split at h
        · exact absurd h (by simp)
        next hmono =>
          split at h
          · exact absurd h (by simp)
          next rest hrec =>
            cases h
            obtain ⟨hlen, hch⟩ := ih (i + 1) nxt rest hrec
            refine ⟨by simp [hlen], ?_⟩
            rw [List.chain'_cons]
            refine ⟨?_, hch⟩
            push_neg at hmono
            cases du with
            | false => simpa using hmono.2 rfl
            | true => simpa using hmono.1 rfl

theorem build_rest_linear_chain (p0 : ℕ) (gap : ℤ) (du : Bool) :
    ∀ fuel i prev l, build_rest p0 (.Linear gap) du fuel i prev = .ok l →
      (prev : ℤ) = (p0 : ℤ) + gap * ((i : ℤ) - 1) →
      List.Chain' (fun a b : ℕ => (b : ℤ) = (a : ℤ) + gap) (prev :: l) := by
  intro fuel
  induction fuel with
  | zero =>
    intro i prev l h _
    unfold build_rest at h
    cases h
    exact List.chain'_singleton prev
  | succ f ih =>
    intro i prev l h hinv
    unfold build_rest at h
    split at h
    · exact absurd h (by simp)
    next nxt hnp =>
      have hnext : (nxt : ℤ) = (p0 : ℤ) + gap * (i : ℤ) := by
        simp only [next_price] at hnp
        split at hnp
        · exact absurd hnp (by simp)
        · split at hnp
          next hpos => exact absurd hnp (by simp)
          · split at hnp
            · exact absurd hnp (by simp)
            next hpos _ =>
              cases hnp
              rw [Int.toNat_of_nonneg]
              omega
      split at h
      · exact absurd h (by simp)
      next hnz =>
        split at h
        · exact absurd h (by simp)
        next hmono =>
          split at h
          · exact absurd h (by simp)
          next rest hrec =>
            cases h
            have hch := ih (i + 1) nxt rest hrec (by push_cast; rw [hnext]; ring)
            rw [List.chain'_cons]
            exact ⟨by rw [hnext, hinv]; ring, hch⟩

theorem build_rest_geom_chain (p0 r : ℕ) (du : Bool) :
    ∀ fuel i prev l, build_rest p0 (.Geometry r) du fuel i prev = .ok l →
      List.Chain' (fun a b : ℕ => b = a * r / PRICE_SCALE) (prev :: l) := by
  intro fuel
  induction fuel with
  | zero =>
    intro i prev l h
    unfold build_rest at h
    cases h
    exact List.chain'_singleton prev
  | succ f ih =>
    intro i prev l h
    unfold build_rest at h
    split at h
    · exact absurd h (by simp)
    next nxt hnp =>
      have hnext : nxt = prev * r / PRICE_SCALE := by
        simp only [next_price] at hnp
        split at hnp
        · exact absurd hnp (by simp)
        · exact mul_div_u64_ok hnp
      split at h
      · exact absurd h (by simp)
      next hnz =>
        split at h
        · exact absurd h (by simp)
        next hmono =>
          split at h
          · exact absurd h (by simp)
          next rest hrec =>
            cases h
            rw [List.chain'_cons]
            exact ⟨hnext, ih (i + 1) nxt rest hrec⟩

/-- C5.  Corrected.  Every ladder `build_side_prices` accepts has slot 0 =
`price0`, length `count`, consecutive Linear slots differing by exactly
`gap` and consecutive Geometric slots satisfying
`slot[i] = slot[i-1] * ratio / 1e9`, strictly increasing for the ask side
and strictly decreasing for the bid side; and every configuration with
`count ≥ 2` whose strategy parameter is invalid for its side (wrong Linear
gap sign; Geometric ratio ≤ 1e9 for ask; ratio outside (0, 1e9) for bid)
is rejected with `InvalidOrderCount`.  The claim's unconditional rejection
fails for `count ≤ 1`: the validation lives in the `for i in 1..n` loop,
which never runs for a single-slot ladder. -/
theorem C5_ladder_validation :
    (∀ price0 count strat du l, build_side_prices price0 count strat du = .ok l →
      l.length = count ∧
      l.getD 0 0 = (if count = 0 then 0 else price0) ∧
      (du = true → List.Chain' (· < ·) l) ∧
      (du = false → List.Chain' (fun a b : ℕ => b < a) l) ∧
      (∀ gap, strat = .Linear gap →
        List.Chain' (fun a b : ℕ => (b : ℤ) = (a : ℤ) + gap) l) ∧
      (∀ r, strat = .Geometry r →
        List.Chain' (fun a b : ℕ => b = a * r / PRICE_SCALE) l)) ∧
    (∀ price0 count strat du, 2 ≤ count → invalid_strategy strat du = true →
      build_side_prices price0 count strat du = .error .InvalidOrderCount) := by
  constructor
  · intro price0 count strat du l h
    unfold build_side_prices at h
    split at h
    next hc =>
      cases h
      subst hc
      simp
    next hc =>
      split at h
      · exact absurd h (by simp)
      · cases hrest : build_rest price0 strat du (count - 1) 1 price0 with
        | error e => rw [hrest] at h; exact absurd h (by simp)
        | ok rest =>
          rw [hrest] at h
          cases h
          obtain ⟨hlen, hch⟩ := build_rest_len_mono price0 strat du (count - 1) 1 price0 rest hrest
          refine ⟨by simp [hlen]; omega, by simp [hc], ?_, ?_, ?_, ?_⟩
          · intro hdu
            subst hdu
            exact List.Chain'.imp (fun a b hab => by simpa using hab) hch
          · intro hdu
            subst hdu
            exact List.Chain'.imp (fun a b hab => by simpa using hab) hch
          · intro gap hstrat
            subst hstrat
            exact build_rest_linear_chain price0 gap du (count - 1) 1 price0 rest hrest
              (by push_cast; ring)
          · intro r hstrat
            subst hstrat
            exact build_rest_geom_chain price0 r du (count - 1) 1 price0 rest hrest
  · intro price0 count strat du hc hbad
    unfold build_side_prices
    split
    next h0 => omega
    · split
      · rfl
      · rw [build_rest_invalid price0 strat du hbad (count - 1) 1 price0 (by omega)]

/-- C5 counterexample: a single-slot ask ladder with a negative Linear gap
— invalid per the claim — is accepted, not rejected. -/
theorem C5_counterexample :
    build_side_prices 1000000000 1 (StrategyParam.Linear (-1)) true = .ok [1000000000] ∧
    invalid_strategy (StrategyParam.Linear (-1)) true = true :=
  ⟨rfl, rfl⟩

theorem C5_witness :
    List.Chain' (· < ·) [1000000000, 1100000000, 1200000000] ∧
    build_side_prices 7 2 (StrategyParam.Linear (-5)) true = .error .InvalidOrderCount :=
  ⟨(C5_ladder_validation.1 1000000000 3 (.Linear 100000000) true
      [1000000000, 1100000000, 1200000000] rfl).2.2.1 rfl,
   C5_ladder_validation.2 7 2 (.Linear (-5)) true (by norm_num) rfl⟩

theorem reverse_price_at_pos (p0 : ℕ) (strat : StrategyParam) (du : Bool) (ps : List ℕ)
    (i : ℕ) (hi : 1 ≤ i) {rp : ℕ} (h : reverse_price_at p0 strat du ps i = .ok rp) :
    rp = ps.getD (i - 1) 0 := by
  cases strat with
  | Linear gap =>
    simp only [reverse_price_at] at h
    split at h
    · exact absurd h (by simp)
    · split at h
      next h0 => omega
      · cases h; rfl
  | Geometry r =>
    simp only [reverse_price_at] at h
    split at h
    · exact absurd h (by simp)
    · split at h
      next h0 => omega
      · cases h; rfl

theorem reverse_price_at_zero_linear {p0 : ℕ} {gap : ℤ} {du : Bool} {ps : List ℕ} {rp : ℕ}
    (h : reverse_price_at p0 (.Linear gap) du ps 0 = .ok rp) :
    (rp : ℤ) = (p0 : ℤ) - gap := by
  simp only [reverse_price_at] at h
  split at h
  · exact absurd h (by simp)
  · split at h
    next h0 =>
      split at h
      · exact absurd h (by simp)
      next hv =>
        split at h
        · exact absurd h (by simp)
        next hv2 =>
          cases h
          rw [Int.toNat_of_nonneg]
          omega
    next h0 => exact absurd trivial h0

theorem reverse_price_at_zero_geom {p0 r : ℕ} {du : Bool} {ps : List ℕ} {rp : ℕ}
    (h : reverse_price_at p0 (.Geometry r) du ps 0 = .ok rp) :
    rp = p0 * PRICE_SCALE / r := by
  simp only [reverse_price_at] at h
  split at h
  · exact absurd h (by simp)
  · split at h
    next h0 => exact mul_div_u64_ok h
    next h0 => exact absurd trivial h0

theorem build_reverse_loop_tail (p0 : ℕ) (strat : StrategyParam) (du : Bool) (ps : List ℕ) :
    ∀ fuel i l, build_reverse_loop p0 strat du ps fuel i = .ok l → 1 ≤ i →
      l.length = fuel ∧ ∀ j, j < fuel → l.getD j 0 = ps.getD (i + j - 1) 0 := by
  intro fuel
  induction fuel with
  | zero =>
    intro i l h _
    unfold build_reverse_loop at h
    cases h
    exact ⟨rfl, fun j hj => absurd hj (Nat.not_lt_zero j)⟩
  | succ f ih =>
    intro i l h hi
    unfold build_reverse_loop at h
    split at h
    · exact absurd h (by simp)
    next rp hrp =>
      split at h
      · exact absurd h (by simp)
      next hnz =>
        split at h
        · exact absurd h (by simp)
        next rest hrec =>
          cases h
          obtain ⟨hlen, htail⟩ := ih (i + 1) rest hrec (by omega)
          refine ⟨by simp [hlen], ?_⟩
          intro j hj
          cases j with
          | zero => simpa using reverse_price_at_pos p0 strat du ps i hi hrp
          | succ j' =>
            have hj' := htail j' (by omega)
            simp only [List.getD_cons_succ]
            rw [hj']
            congr 1
            omega

/-- C6.  Confirmed.  Every reverse ladder `build_side_reverse_prices`
accepts has the same length as its count, satisfies
`reverse[i] = forward[i-1]` for every `0 < i < count`, and `reverse[0]` is
one strategy step before `price0` in the opposite direction (`price0 −
gap` for Linear, `price0 * 1e9 / ratio` for Geometric); spec Scenario A
evaluates exactly as claimed. -/
theorem C6_reverse_ladder :
    (∀ price0 count strat du ps rs,
      build_side_reverse_prices price0 count strat du ps = .ok rs →
      rs.length = count ∧
      (∀ i, 0 < i → i < count → rs.getD i 0 = ps.getD (i - 1) 0) ∧
      (0 < count →
        (∀ gap, strat = .Linear gap → (rs.getD 0 0 : ℤ) = (price0 : ℤ) - gap) ∧
        (∀ r, strat = .Geometry r → rs.getD 0 0 = price0 * PRICE_SCALE / r))) ∧
    (build_side_prices 1000000000 3 (StrategyParam.Linear 100000000) true =
        .ok [1000000000, 1100000000, 1200000000] ∧
      build_side_reverse_prices 1000000000 3 (StrategyParam.Linear 100000000) true
        [1000000000, 1100000000, 1200000000] = .ok [900000000, 1000000000, 1100000000]) := by
  constructor
  · intro price0 count strat du ps rs h
    unfold build_side_reverse_prices at h
    split at h
    next hc =>
      cases h
      subst hc
      exact ⟨rfl, fun i h1 h2 => absurd h2 (by omega), fun hq => absurd hq (by omega)⟩
    next hc =>
      split at h
      · exact absurd h (by simp)
      next hlen =>
        cases count with
        | zero => exact absurd rfl hc
        | succ k =>
          unfold build_reverse_loop at h
          split at h
          · exact absurd h (by simp)
          next rp0 hrp0 =>
            split at h
            · exact absurd h (by simp)
            next hnz =>
              split at h
              · exact absurd h (by simp)
              next rest hrec =>
                cases h
                obtain ⟨hlen', htail⟩ :=
                  build_reverse_loop_tail price0 strat du ps k 1 rest hrec (le_refl 1)
                refine ⟨by simp [hlen'], ?_, ?_⟩
                · intro i h1 h2
                  cases i with
                  | zero => omega
                  | succ j =>
                    simp only [List.getD_cons_succ]
                    rw [htail j (by omega)]
                    congr 1
                    omega
                · intro _
                  constructor
                  · intro gap hstrat
                    subst hstrat
                    simpa using reverse_price_at_zero_linear hrp0
                  · intro r hstrat
                    subst hstrat
                    simpa using reverse_price_at_zero_geom hrp0
  · exact ⟨rfl, rfl⟩

theorem C6_witness :
    ([900000000, 1000000000, 1100000000] : List ℕ).getD 1 0 =
      ([1000000000, 1100000000, 1200000000] : List ℕ).getD 0 0 ∧
    (([900000000, 1000000000, 1100000000] : List ℕ).getD 0 0 : ℤ) =
      (1000000000 : ℤ) - 100000000 :=
  ⟨(C6_reverse_ladder.1 1000000000 3 (.Linear 100000000) true
      [1000000000, 1100000000, 1200000000] [900000000, 1000000000, 1100000000]
      rfl).2.1 1 (by norm_num) (by norm_num),
    ((C6_reverse_ladder.1 1000000000 3 (.Linear 100000000) true
      [1000000000, 1100000000, 1200000000] [900000000, 1000000000, 1100000000]
      rfl).2.2 (by norm_num)).1 100000000 rfl⟩

theorem apply_ask_bookkeeping_cap (grid : Grid) (idx fb qg mf qp : ℕ) (g' : Grid)
    (hcomp : grid.compound = false) (hlen : idx < grid.ask_reverse_quote.length)
    (h : apply_ask_bookkeeping grid idx fb qg mf qp = .ok g') :
    (grid.ask_reverse_quote.getD idx 0 ≤ grid.base_amount_per_order * qp / PRICE_SCALE →
      g'.ask_reverse_quote.getD idx 0 ≤ grid.base_amount_per_order * qp / PRICE_SCALE) ∧
    g'.ask_reverse_quote.getD idx 0 + g'.profits_quote =
      grid.ask_reverse_quote.getD idx 0 + grid.profits_quote + (qg + mf) := by
  simp only [apply_ask_bookkeeping] at h
  split at h
  · exact absurd h (by simp)
  next new_rem hsub =>
    split at h
    next hcT => simp [hcomp] at hcT
    next hcF =>
      split at h
      · exact absurd h (by simp)
      next target htq =>
        split at h
        · exact absurd h (by simp)
        next add hadd =>
          have hadd' := checked_add_ok hadd
          have htq' := mul_div_u64_ok htq
          simp only at htq'
          split at h
          next hge =>
            split at h
            · exact absurd h (by simp)
            next p hp =>
              cases h
              have hp' := checked_add_ok hp
              constructor
              · intro hpre; simpa using hpre
              · simp only at hp' ⊢
                omega
          next hlt =>
            split at h
            · exact absurd h (by simp)
            next nxt hnxt =>
              have hnxt' := checked_add_ok hnxt
              simp only at hnxt'
              split at h
              next hover =>
                split at h
                · exact absurd h (by simp)
                next ovf hovf =>
                  split at h
                  · exact absurd h (by simp)
                  next p hp =>
                    cases h
                    have hovf' := (checked_sub_ok hovf).2
                    have hp' := checked_add_ok hp
                    have hset := getD_set_self grid.ask_reverse_quote idx target hlen
                    constructor
                    · intro hpre
                      simp only [hset]
                      omega
                    · simp only [hset, hp'] at *
                      omega
              next hnover =>
                cases h
                have hset := getD_set_self grid.ask_reverse_quote idx nxt hlen
                constructor
                · intro hpre
                  simp only [hset]
                  omega
                · simp only [hset]
                  omega

theorem apply_bid_reverse_bookkeeping_cap (grid : Grid) (idx fb qg mf qp : ℕ) (g' : Grid)
    (hcomp : grid.compound = false) (hlen : idx < grid.bid_remaining_quote.length)
    (h : apply_bid_reverse_bookkeeping grid idx fb qg mf qp = .ok g') :
    (grid.bid_remaining_quote.getD idx 0 ≤ grid.base_amount_per_order * qp / PRICE_SCALE →
      g'.bid_remaining_quote.getD idx 0 ≤ grid.base_amount_per_order * qp / PRICE_SCALE) ∧
    g'.bid_remaining_quote.getD idx 0 + g'.profits_quote =
      grid.bid_remaining_quote.getD idx 0 + grid.profits_quote + (qg + mf) := by
  simp only [apply_bid_reverse_bookkeeping] at h
  split at h
  · exact absurd h (by simp)
  next new_rb hsub =>
    split at h
    · exact absurd h (by simp)
    next add hadd =>
      have hadd' := checked_add_ok hadd
      split at h
      next hcT => simp [hcomp] at hcT
      next hcF =>
        split at h
        · exact absurd h (by simp)
        next target htq =>
          have htq' := mul_div_u64_ok htq
          simp only at htq'
          split at h
          next hge =>
            split at h
            · exact absurd h (by simp)
            next p hp =>
              cases h
              have hp' := checked_add_ok hp
              constructor
              · intro hpre; simpa using hpre
              · simp only at hp' ⊢
                omega
          next hlt =>
            split at h
            · exact absurd h (by simp)
            next nxt hnxt =>
              have hnxt' := checked_add_ok hnxt
              simp only at hnxt'
              split at h
              next hover =>
                split at h
                · exact absurd h (by simp)
                next ovf hovf =>
                  split at h
                  · exact absurd h (by simp)
                  next p hp =>
                    cases h
                    have hovf' := (checked_sub_ok hovf).2
                    have hp' := checked_add_ok hp
                    have hset := getD_set_self grid.bid_remaining_quote idx target hlen
                    constructor
                    · intro hpre
                      simp only [hset]
                      omega
                    · simp only [hset, hp'] at *
                      omega
              next hnover =>
                cases h
                have hset := getD_set_self grid.bid_remaining_quote idx nxt hlen
                constructor
                · intro hpre
                  simp only [hset]
                  omega
                · simp only [hset]
                  omega

/-- C2.  Confirmed.  For every non-compound credit to a capped slot
(`ask_reverse_quote` from a Buy × Ask fill, `bid_remaining_quote` from a
Buy × Bid reverse fill): a slot at or below its cap
(`base_amount_per_order * governing price / 1e9`) stays at or below the
cap, and the credited `quote_gross + maker_fee` splits exactly between the
slot balance and `profits_quote` (slot increase + profits increase =
credit, nothing lost or double-counted).  The source compares the
tentative post-credit balance to the cap, not the pre-credit one. -/
theorem C2_noncompound_cap :
    (∀ grid idx fb qg mf qp g', grid.compound = false →
      idx < grid.ask_reverse_quote.length →
      apply_ask_bookkeeping grid idx fb qg mf qp = .ok g' →
      ((grid.ask_reverse_quote.getD idx 0 ≤ grid.base_amount_per_order * qp / PRICE_SCALE →
        g'.ask_reverse_quote.getD idx 0 ≤ grid.base_amount_per_order * qp / PRICE_SCALE) ∧
      g'.ask_reverse_quote.getD idx 0 + g'.profits_quote =
        grid.ask_reverse_quote.getD idx 0 + grid.profits_quote + (qg + mf))) ∧
    (∀ grid idx fb qg mf qp g', grid.compound = false →
      idx < grid.bid_remaining_quote.length →
      apply_bid_reverse_bookkeeping grid idx fb qg mf qp = .ok g' →
      ((grid.bid_remaining_quote.getD idx 0 ≤ grid.base_amount_per_order * qp / PRICE_SCALE →
        g'.bid_remaining_quote.getD idx 0 ≤ grid.base_amount_per_order * qp / PRICE_SCALE) ∧
      g'.bid_remaining_quote.getD idx 0 + g'.profits_quote =
        grid.bid_remaining_quote.getD idx 0 + grid.profits_quote + (qg + mf))) :=
  ⟨fun grid idx fb qg mf qp g' hcomp hlen h =>
      apply_ask_bookkeeping_cap grid idx fb qg mf qp g' hcomp hlen h,
    fun grid idx fb qg mf qp g' hcomp hlen h =>
      apply_bid_reverse_bookkeeping_cap grid idx fb qg mf qp g' hcomp hlen h⟩

theorem C2_witness :
    (gridB.ask_reverse_quote.getD 0 0 ≤ gridB.base_amount_per_order * 900000000 / PRICE_SCALE →
      gridB'.ask_reverse_quote.getD 0 0 ≤
        gridB.base_amount_per_order * 900000000 / PRICE_SCALE) ∧
    gridB'.ask_reverse_quote.getD 0 0 + gridB'.profits_quote =
      gridB.ask_reverse_quote.getD 0 0 + gridB.profits_quote + (100 + 1) :=
  C2_noncompound_cap.1 gridB 0 100 100 1 900000000 gridB' rfl (by decide) rfl

theorem apply_ask_bookkeeping_remaining (grid : Grid) (idx fb qg mf qp : ℕ) (g' : Grid)
    (hlen : idx < grid.ask_remaining.length)
    (h : apply_ask_bookkeeping grid idx fb qg mf qp = .ok g') :
    fb ≤ grid.ask_remaining.getD idx 0 ∧
    g'.ask_remaining.getD idx 0 = grid.ask_remaining.getD idx 0 - fb := by
  simp only [apply_ask_bookkeeping] at h
  split at h
  · exact absurd h (by simp)
  next new_rem hsub =>
    obtain ⟨hle, hval⟩ := checked_sub_ok hsub
    have hset := getD_set_self grid.ask_remaining idx new_rem hlen
    subst hval
    refine ⟨hle, ?_⟩
    split at h
    next hcT =>
      split at h
      · exact absurd h (by simp)
      · split at h
        · exact absurd h (by simp)
        · cases h
          simpa using hset
    next hcF =>
      split at h
      · exact absurd h (by simp)
      next target htq =>
        split at h
        · exact absurd h (by simp)
        next add hadd =>
          split at h
          next hge =>
            split at h
            · exact absurd h (by simp)
            next p hp =>
              cases h
              simpa using hset
          next hlt =>
            split at h
            · exact absurd h (by simp)
            next nxt hnxt =>
              split at h
              next hover =>
                split at h
                · exact absurd h (by simp)
                next ovf hovf =>
                  split at h
                  · exact absurd h (by simp)
                  next p hp =>
                    cases h
                    simpa using hset
              next hnover =>
                cases h
                simpa using hset

theorem apply_bid_reverse_bookkeeping_base (grid : Grid) (idx fb qg mf qp : ℕ) (g' : Grid)
    (hlen : idx < grid.bid_reverse_base.length)
    (h : apply_bid_reverse_bookkeeping grid idx fb qg mf qp = .ok g') :
    fb ≤ grid.bid_reverse_base.getD idx 0 ∧
    g'.bid_reverse_base.getD idx 0 = grid.bid_reverse_base.getD idx 0 - fb := by
  simp only [apply_bid_reverse_bookkeeping] at h
  split at h
  · exact absurd h (by simp)
  next new_rb hsub =>
    obtain ⟨hle, hval⟩ := checked_sub_ok hsub
    have hset := getD_set_self grid.bid_reverse_base idx new_rb hlen
    subst hval
    refine ⟨hle, ?_⟩
    split at h
    · exact absurd h (by simp)
    next add hadd =>
      split at h
      next hcT =>
        split at h
        · exact absurd h (by simp)
        · cases h
          simpa using hset
      next hcF =>
        split at h
        · exact absurd h (by simp)
        next target htq =>
          split at h
          next hge =>
            split at h
            · exact absurd h (by simp)
            next p hp =>
              cases h
              simpa using hset
          next hlt =>
            split at h
            · exact absurd h (by simp)
            next nxt hnxt =>
              split at h
              next hover =>
                split at h
                · exact absurd h (by simp)
                next ovf hovf =>
                  split at h
                  · exact absurd h (by simp)
                  next p hp =>
                    cases h
                    simpa using hset
              next hnover =>
                cases h
                simpa using hset

theorem execute_fill_buy_ask {cfg : Config} {grid : Grid} {oi ba : ℕ} {g' : Grid}
    {out : FillOutcome}
    (h : execute_single_fill cfg grid ⟨0, 0, oi, ba⟩ = .ok (g', out)) :
    oi < grid.ask_remaining.length ∧
    grid.ask_remaining.getD oi 0 ≠ 0 ∧
    out.fill_base = min (grid.ask_remaining.getD oi 0) ba ∧
    out.quote_gross = out.fill_base * grid.ask_prices.getD oi 0 / PRICE_SCALE ∧
    out.total_fee = out.quote_gross * grid.fee_bps / BPS_DENOMINATOR ∧
    g'.ask_remaining.getD oi 0 = grid.ask_remaining.getD oi 0 - out.fill_base := by
  simp only [execute_single_fill] at h
  split at h
  · exact absurd h (by simp)
  next go hstep =>
    split at h
    · exact absurd h (by simp)
    next amt hamt =>
      split at h
      · exact absurd h (by simp)
      next pfq hpfq =>
        cases h
        split at hstep
        next hidx => exact absurd hstep (by simp)
        next hidx =>
          split at hstep
          next hrem0 => exact absurd hstep (by simp)
          next hremne =>
            split at hstep
            · exact absurd hstep (by simp)
            next qg hqg =>
              split at hstep
              · exact absurd hstep (by simp)
              next tf htf =>
                split at hstep
                · exact absurd hstep (by simp)
                next g2 hbk =>
                  cases hstep
                  have hidx' : oi < grid.ask_remaining.length := by omega
                  obtain ⟨_, hrem⟩ :=
                    apply_ask_bookkeeping_remaining grid oi _ _ _ _ g2 hidx' hbk
                  exact ⟨hidx', hremne, rfl, mul_div_u64_ok hqg, calc_fee_u64_ok htf,
                    by simpa using hrem⟩

theorem execute_fill_buy_bid {cfg : Config} {grid : Grid} {oi ba : ℕ} {g' : Grid}
    {out : FillOutcome}
    (h : execute_single_fill cfg grid ⟨0, 1, oi, ba⟩ = .ok (g', out)) :
    grid.oneshot = false ∧
    oi < grid.bid_reverse_base.length ∧
    grid.bid_reverse_base.getD oi 0 ≠ 0 ∧
    out.fill_base = min (grid.bid_reverse_base.getD oi 0) ba ∧
    out.quote_gross = out.fill_base * grid.bid_rev_prices.getD oi 0 / PRICE_SCALE ∧
    out.total_fee = out.quote_gross * grid.fee_bps / BPS_DENOMINATOR ∧
    g'.bid_reverse_base.getD oi 0 = grid.bid_reverse_base.getD oi 0 - out.fill_base := by
  simp only [execute_single_fill] at h
  split at h
  · exact absurd h (by simp)
  next go hstep =>
    split at h
    · exact absurd h (by simp)
    next amt hamt =>
      split at h
      · exact absurd h (by simp)
      next pfq hpfq =>
        cases h
        split at hstep
        next hos => exact absurd hstep (by simp)
        next hos =>
          split at hstep
          next hidx => exact absurd hstep (by simp)
          next hidx =>
            split at hstep
            next hrem0 => exact absurd hstep (by simp)
            next hremne =>
              split at hstep
              · exact absurd hstep (by simp)
              next qg hqg =>
                split at hstep
                · exact absurd hstep (by simp)
                next tf htf =>
                  split at hstep
                  · exact absurd hstep (by simp)
                  next g2 hbk =>
                    cases hstep
                    have hidx' : oi < grid.bid_reverse_base.length := by omega
                    obtain ⟨_, hrb⟩ :=
                      apply_bid_reverse_bookkeeping_base grid oi _ _ _ _ g2 hidx' hbk
                    exact ⟨Bool.not_eq_true _ ▸ hos, hidx', hremne, rfl, mul_div_u64_ok hqg,
                      calc_fee_u64_ok htf, by simpa using hrb⟩

/-- C7.  Confirmed.  A successful Buy × Ask fill takes
`fill_base = min(ask_remaining[idx], requested)`, prices it as
`quote_gross = fill_base * ask_prices[idx] / 1e9`, charges
`total_fee = quote_gross * fee_bps / 10000`, and decrements
`ask_remaining[idx]` by `fill_base`; spec Scenario B (fresh non-compound
grid, `base_amount_per_order` = 100, `ask_prices[0]` = 1e9, `fee_bps` =
100) evaluates to `ask_remaining[0] = 0`, `quote_gross = 100`,
`total_fee = 1`, `ask_reverse_quote[0] = min(100 + maker_fee, cap)` with
`cap = base_amount_per_order * ask_rev_prices[0] / 1e9`. -/
theorem C7_buy_ask_fill :
    (∀ cfg grid t g' out, t.side = 0 → t.order_side = 0 → grid.status = 0 →
      execute_single_fill cfg grid t = .ok (g', out) →
      out.fill_base = min (grid.ask_remaining.getD t.order_index 0) t.base_amount ∧
      out.quote_gross = out.fill_base * grid.ask_prices.getD t.order_index 0 / PRICE_SCALE ∧
      out.total_fee = out.quote_gross * grid.fee_bps / BPS_DENOMINATOR ∧
      g'.ask_remaining.getD t.order_index 0 =
        grid.ask_remaining.getD t.order_index 0 - out.fill_base) ∧
    (execute_single_fill cfgB gridB ⟨0, 0, 0, 100⟩ = .ok (gridB', ⟨100, 100, 1, 0⟩) ∧
      gridB'.ask_remaining.getD 0 0 = 0 ∧
      gridB'.ask_reverse_quote.getD 0 0 =
        min (100 + 1)
          (gridB.base_amount_per_order * gridB.ask_rev_prices.getD 0 0 / PRICE_SCALE)) := by
  constructor
  · intro cfg grid t g' out hs ho hact h
    obtain ⟨s, os, oi, ba⟩ := t
    simp only at hs ho ⊢
    subst hs
    subst ho
    have hfacts := execute_fill_buy_ask h
    exact ⟨hfacts.2.2.1, hfacts.2.2.2.1, hfacts.2.2.2.2.1, hfacts.2.2.2.2.2⟩
  · exact ⟨rfl, rfl, rfl⟩

theorem C7_witness :
    (100 : ℕ) = min (gridB.ask_remaining.getD 0 0) 100 ∧
    (100 : ℕ) = 100 * gridB.ask_prices.getD 0 0 / PRICE_SCALE ∧
    (1 : ℕ) = 100 * gridB.fee_bps / BPS_DENOMINATOR ∧
    gridB'.ask_remaining.getD 0 0 = gridB.ask_remaining.getD 0 0 - 100 :=
  C7_buy_ask_fill.1 cfgB gridB ⟨0, 0, 0, 100⟩ gridB' ⟨100, 100, 1, 0⟩ rfl rfl rfl rfl

/-- C1.  Corrected.  A successful Buy × Bid reverse fill on a non-oneshot
Active grid takes `fill_base = min(bid_reverse_base[idx], requested)` and
decrements `bid_reverse_base[idx]` by `fill_base` as claimed, but it
prices the fill at the REVERSE bid price:
`quote_gross = fill_base * bid_rev_prices[idx] / 1e9` — not at the forward
`bid_prices[idx]` as the claim (and spec §4.3/§9) states.  The forward bid
price enters only as the quota price of the non-compound cap inside
`apply_bid_reverse_bookkeeping`. -/
theorem C1_reverse_bid_fill :
    ∀ cfg grid t g' out, t.side = 0 → t.order_side = 1 → grid.status = 0 →
      execute_single_fill cfg grid t = .ok (g', out) →
      grid.oneshot = false ∧
      out.fill_base = min (grid.bid_reverse_base.getD t.order_index 0) t.base_amount ∧
      out.quote_gross = out.fill_base * grid.bid_rev_prices.getD t.order_index 0 / PRICE_SCALE ∧
      g'.bid_reverse_base.getD t.order_index 0 =
        grid.bid_reverse_base.getD t.order_index 0 - out.fill_base := by
  intro cfg grid t g' out hs ho hact h
  obtain ⟨s, os, oi, ba⟩ := t
  simp only at hs ho ⊢
  subst hs
  subst ho
  have hfacts := execute_fill_buy_bid h
  exact ⟨hfacts.1, hfacts.2.2.2.1, hfacts.2.2.2.2.1, hfacts.2.2.2.2.2.2⟩

/-- C1 counterexample: `gridC` has `bid_prices[0]` = 1e9 and
`bid_rev_prices[0]` = 1.1e9; the Buy × Bid reverse fill of 10 base units
yields `quote_gross = 11` (priced at the reverse price), while the claim's
formula `fill_base * bid_prices[0] / 1e9` gives 10. -/
theorem C1_counterexample :
    execute_single_fill cfgC gridC ⟨0, 1, 0, 10⟩ = .ok (gridC', ⟨10, 11, 0, 0⟩) ∧
    (11 : ℕ) ≠ 10 * gridC.bid_prices.getD 0 0 / PRICE_SCALE :=
  ⟨rfl, by decide⟩

theorem C1_witness :
    gridC.oneshot = false ∧
    (10 : ℕ) = min (gridC.bid_reverse_base.getD 0 0) 10 ∧
    (11 : ℕ) = 10 * gridC.bid_rev_prices.getD 0 0 / PRICE_SCALE ∧
    gridC'.bid_reverse_base.getD 0 0 = gridC.bid_reverse_base.getD 0 0 - 10 :=
  C1_reverse_bid_fill cfgC gridC ⟨0, 1, 0, 10⟩ gridC' ⟨10, 11, 0, 0⟩ rfl rfl rfl rfl

/-- C3.  Confirmed.  Any batch whose second target fails makes the whole
`fill_orders` call return an error, and under the caller's transactional
commit (spec §5, modelled by `committed_grids`) every grid — target 1
included — keeps its pre-call ledger state; in particular a second target
that references an out-of-range slot fails with `InvalidOrderIndex`. -/
theorem C3_batch_atomicity :
    (∀ cfg (g1 g2 : Grid) (t1 t2 : FillTarget) e,
      fill_step cfg g2 t2 = .error e →
      (∃ e2, fill_orders cfg [(g1, t1), (g2, t2)] = .error e2) ∧
      committed_grids [g1, g2] (fill_orders cfg [(g1, t1), (g2, t2)]) = [g1, g2]) ∧
    (∀ cfg (g : Grid) (t : FillTarget), t.side = 0 → t.order_side = 0 →
      t.base_amount ≠ 0 → g.status = 0 → g.ask_remaining.length ≤ t.order_index →
      fill_step cfg g t = .error .InvalidOrderIndex) := by
  constructor
  · intro cfg g1 g2 t1 t2 e he
    have hres : ∃ e2, fill_orders cfg [(g1, t1), (g2, t2)] = .error e2 := by
      unfold fill_orders
      rw [if_neg (by simp)]
      by_cases hp : cfg.paused = true
      · rw [if_pos hp]
        exact ⟨.Paused, rfl⟩
      · rw [if_neg hp]
        unfold fill_orders_loop
        cases h1 : fill_step cfg g1 t1 with
        | error e1 => exact ⟨e1, rfl⟩
        | ok g1' =>
          unfold fill_orders_loop
          rw [he]
          exact ⟨e, rfl⟩
    obtain ⟨e2, he2⟩ := hres
    exact ⟨⟨e2, he2⟩, by rw [he2]; rfl⟩
  · intro cfg g t hs ho hba hact hlen
    obtain ⟨s, os, oi, ba⟩ := t
    simp only at hs ho hba hlen
    subst hs
    subst ho
    unfold fill_step
    rw [if_neg hba, if_neg (by simp [hact])]
    have hex : execute_single_fill cfg g ⟨0, 0, oi, ba⟩ = .error .InvalidOrderIndex := by
      simp only [execute_single_fill]
      rw [if_pos hlen]
    rw [hex]

theorem C3_witness :
    (∃ e2, fill_orders cfgC [(gridB, ⟨0, 0, 0, 100⟩), (gridC, ⟨0, 0, 9, 50⟩)] = .error e2) ∧
    committed_grids [gridB, gridC]
      (fill_orders cfgC [(gridB, ⟨0, 0, 0, 100⟩), (gridC, ⟨0, 0, 9, 50⟩)]) =
      [gridB, gridC] :=
  C3_batch_atomicity.1 cfgC gridB gridC ⟨0, 0, 0, 100⟩ ⟨0, 0, 9, 50⟩ .InvalidOrderIndex
    (C3_batch_atomicity.2 cfgC gridC ⟨0, 0, 9, 50⟩ rfl rfl (by decide) rfl (by decide))

theorem cancel_grid_ok_spec (grid g' : Grid) (rb rq : ℕ)
    (h : cancel_grid grid = .ok (g', rb, rq)) :
    grid.status = 0 ∧
    rb = grid.ask_remaining.sum + grid.bid_reverse_base.sum ∧
    rq = grid.ask_reverse_quote.sum + grid.bid_remaining_quote.sum + grid.profits_quote ∧
    g' = { grid with
      ask_remaining := List.replicate grid.ask_remaining.length 0,
      ask_reverse_quote := List.replicate grid.ask_reverse_quote.length 0,
      bid_remaining_quote := List.replicate grid.bid_remaining_quote.length 0,
      bid_reverse_base := List.replicate grid.bid_reverse_base.length 0,
      profits_quote := 0,
      status := 1 } := by
  unfold cancel_grid at h
  split at h
  next hne => exact absurd h (by simp)
  next hne =>
    split at h
    · exact absurd h (by simp)
    next s1 hs1 =>
      split at h
      · exact absurd h (by simp)
      next s2 hs2 =>
        split at h
        · exact absurd h (by simp)
        next rb0 hrb =>
          split at h
          · exact absurd h (by simp)
          next s3 hs3 =>
            split at h
            · exact absurd h (by simp)
            next s4 hs4 =>
              split at h
              · exact absurd h (by simp)
              next s34 h34 =>
                split at h
                · exact absurd h (by simp)
                next rq0 hrq =>
                  cases h
                  refine ⟨by omega, ?_, ?_, rfl⟩
                  · rw [checked_add_ok hrb, sum_u64_slice_ok hs1, sum_u64_slice_ok hs2]
                  · rw [checked_add_ok hrq, checked_add_ok h34,
                      sum_u64_slice_ok hs3, sum_u64_slice_ok hs4]

/-- C8.  Confirmed.  A successful `cancel_grid` requires Active status,
refunds the sum of all forward and reverse inventories (base side:
`ask_remaining + bid_reverse_base`; quote side: `ask_reverse_quote +
bid_remaining_quote + profits_quote`), zeroes every inventory entry and
`profits_quote`, and stamps the terminal Canceled status; on a non-Active
grid it is rejected with `GridCanceled`. -/
theorem C8_cancel_grid :
    (∀ grid g' rb rq, grid.status = 0 → cancel_grid grid = .ok (g', rb, rq) →
      rb = grid.ask_remaining.sum + grid.bid_reverse_base.sum ∧
      rq = grid.ask_reverse_quote.sum + grid.bid_remaining_quote.sum + grid.profits_quote ∧
      g' = { grid with
        ask_remaining := List.replicate grid.ask_remaining.length 0,
        ask_reverse_quote := List.replicate grid.ask_reverse_quote.length 0,
        bid_remaining_quote := List.replicate grid.bid_remaining_quote.length 0,
        bid_reverse_base := List.replicate grid.bid_reverse_base.length 0,
        profits_quote := 0,
        status := 1 }) ∧
    (∀ grid, grid.status ≠ 0 → cancel_grid grid = .error .GridCanceled) := by
  constructor
  · intro grid g' rb rq _ h
    exact (cancel_grid_ok_spec grid g' rb rq h).2
  · intro grid hne
    unfold cancel_grid
    rw [if_pos hne]

theorem C8_witness :
    (100 : ℕ) = gridB.ask_remaining.sum + gridB.bid_reverse_base.sum ∧
    (90 : ℕ) = gridB.ask_reverse_quote.sum + gridB.bid_remaining_quote.sum +
      gridB.profits_quote ∧
    gridBc = { gridB with
      ask_remaining := List.replicate gridB.ask_remaining.length 0,
      ask_reverse_quote := List.replicate gridB.ask_reverse_quote.length 0,
      bid_remaining_quote := List.replicate gridB.bid_remaining_quote.length 0,
      bid_reverse_base := List.replicate gridB.bid_reverse_base.length 0,
      profits_quote := 0,
      status := 1 } :=
  C8_cancel_grid.1 gridB gridBc 100 90 rfl rfl

/-- C9.  Confirmed.  `cancel_order` on an in-range slot whose forward and
reverse inventories are both 0 is rejected with `InsufficientLiquidity`
(the error is returned before any mutation); with at least one nonzero
inventory it refunds the forward and reverse amounts at that slot and
zeroes both, on either side. -/
theorem C9_cancel_order :
    (∀ grid idx, idx < grid.ask_remaining.length →
      grid.ask_remaining.getD idx 0 = 0 → grid.ask_reverse_quote.getD idx 0 = 0 →
      cancel_order grid 0 idx = .error .InsufficientLiquidity) ∧
    (∀ grid idx, idx < grid.ask_remaining.length →
      ¬(grid.ask_remaining.getD idx 0 = 0 ∧ grid.ask_reverse_quote.getD idx 0 = 0) →
      cancel_order grid 0 idx = .ok ({ grid with
          ask_remaining := grid.ask_remaining.set idx 0,
          ask_reverse_quote := grid.ask_reverse_quote.set idx 0 },
        grid.ask_remaining.getD idx 0, grid.ask_reverse_quote.getD idx 0)) ∧
    (∀ grid idx, idx < grid.bid_remaining_quote.length →
      grid.bid_reverse_base.getD idx 0 = 0 → grid.bid_remaining_quote.getD idx 0 = 0 →
      cancel_order grid 1 idx = .error .InsufficientLiquidity) ∧
    (∀ grid idx, idx < grid.bid_remaining_quote.length →
      ¬(grid.bid_reverse_base.getD idx 0 = 0 ∧ grid.bid_remaining_quote.getD idx 0 = 0) →
      cancel_order grid 1 idx = .ok ({ grid with
          bid_remaining_quote := grid.bid_remaining_quote.set idx 0,
          bid_reverse_base := grid.bid_reverse_base.set idx 0 },
        grid.bid_reverse_base.getD idx 0, grid.bid_remaining_quote.getD idx 0)) := by
  refine ⟨?_, ?_, ?_, ?_⟩
  · intro grid idx hlen h1 h2
    unfold cancel_order
    rw [if_pos rfl, if_neg (by omega), if_pos ⟨h1, h2⟩]
  · intro grid idx hlen hne
    unfold cancel_order
    rw [if_pos rfl, if_neg (by omega), if_neg hne]
  · intro grid idx hlen h1 h2
    unfold cancel_order
    rw [if_neg (by norm_num), if_pos rfl, if_neg (by omega), if_pos ⟨h1, h2⟩]
  · intro grid idx hlen hne
    unfold cancel_order
    rw [if_neg (by norm_num), if_pos rfl, if_neg (by omega), if_neg hne]

theorem C9_witness :
    cancel_order { gridB with ask_remaining := [0], ask_reverse_quote := [0] } 0 0 =
      .error .InsufficientLiquidity ∧
    cancel_order gridB 0 0 = .ok ({ gridB with
        ask_remaining := gridB.ask_remaining.set 0 0,
        ask_reverse_quote := gridB.ask_reverse_quote.set 0 0 },
      gridB.ask_remaining.getD 0 0, gridB.ask_reverse_quote.getD 0 0) :=
  ⟨C9_cancel_order.1 { gridB with ask_remaining := [0], ask_reverse_quote := [0] } 0
      (by decide) rfl rfl,
    C9_cancel_order.2.1 gridB 0 (by decide) (by decide)⟩

/-- C10.  Confirmed.  `cancel_grid` leaves `protocol_fees_quote` untouched
(it is neither refunded nor zeroed), and `withdraw_protocol_fees` never
examines the grid's status: on any grid with positive
`protocol_fees_quote` — a Canceled one included — it succeeds, decrements
exactly `protocol_fees_quote`, and changes no other field. -/
theorem C10_protocol_fees_frame :
    (∀ grid g' rb rq, cancel_grid grid = .ok (g', rb, rq) →
      g'.protocol_fees_quote = grid.protocol_fees_quote) ∧
    (∀ grid amount, 0 < grid.protocol_fees_quote →
      0 < withdraw_amt grid.protocol_fees_quote amount ∧
      withdraw_protocol_fees grid amount =
        .ok ({ grid with protocol_fees_quote :=
            grid.protocol_fees_quote - withdraw_amt grid.protocol_fees_quote amount },
          withdraw_amt grid.protocol_fees_quote amount)) := by
  constructor
  · intro grid g' rb rq h
    rw [(cancel_grid_ok_spec grid g' rb rq h).2.2.2]
  · intro grid amount hpos
    have hamt : 0 < withdraw_amt grid.protocol_fees_quote amount := by
      unfold withdraw_amt
      split <;> omega
    have hle : withdraw_amt grid.protocol_fees_quote amount ≤ grid.protocol_fees_quote := by
      unfold withdraw_amt
      split <;> omega
    refine ⟨hamt, ?_⟩
    unfold withdraw_protocol_fees
    rw [if_neg (by omega)]
    have hcs : checked_sub grid.protocol_fees_quote
        (withdraw_amt grid.protocol_fees_quote amount) =
        .ok (grid.protocol_fees_quote - withdraw_amt grid.protocol_fees_quote amount) := by
      unfold checked_sub
      rw [if_pos hle]
    rw [hcs]

theorem C10_witness :
    gridBc.protocol_fees_quote = gridB.protocol_fees_quote ∧
    (0 < withdraw_amt gridD.protocol_fees_quote 0 ∧
      withdraw_protocol_fees gridD 0 =
        .ok ({ gridD with protocol_fees_quote :=
            gridD.protocol_fees_quote - withdraw_amt gridD.protocol_fees_quote 0 },
          withdraw_amt gridD.protocol_fees_quote 0)) :=
  ⟨C10_protocol_fees_frame.1 gridB gridBc 100 90 rfl,
    C10_protocol_fees_frame.2 gridD 0 (by decide)⟩

end Gridsol










